import Mathlib

/-!
Shallow embedding of the salty-jabber content script (src/content.js) and
verification of its specified properties.

Conventions of the embedding:
* DOM `style.display` values are modelled as plain strings ("", "none",
  "inline-block", "block"), exactly the values the script reads and writes.
* JS numbers used as prices are modelled as `Rat`; `parseFloat` on the
  price text is a platform primitive, so a price field is modelled as the
  outcome of that parse: missing element, unparseable text (NaN), or a
  parsed value.
* `null`/`undefined` arguments are modelled as `Option.none`.
* Time is modelled as natural-number time units; `setInterval(f, 100)`
  fires at times 100, 200, 300, ... .
-/

/-- Outcome of `parseFloat(priceElem.innerText.replace("$",""))` for a
product item: the `.product-price` element may be missing
(`querySelector` returned null), its text may fail to parse (NaN), or it
parses to a number. -/
inductive PriceField where
  | missing : PriceField
  | unparsable : PriceField
  | value : Rat → PriceField
deriving DecidableEq

/-- An `app-product-item` element: its price field and its current
`style.display`. -/
structure ProductItem where
  price : PriceField
  display : String
deriving DecidableEq

/-- A `.product-container` element with its `app-product-item`
descendants and its own `style.display`. -/
structure ProductContainer where
  display : String
  items : List ProductItem
deriving DecidableEq

/-- The part of the document `SalTalk.filterByPrice` touches: the
`.product-container` groups and any `app-product-item` elements that are
outside every container (the first `querySelectorAll` pass sees those
too). -/
structure FilterPage where
  containers : List ProductContainer
  looseItems : List ProductItem
deriving DecidableEq

/-- The body of the first `forEach` of `SalTalk.filterByPrice`, per item:
if the `.product-price` element is null, return early (item untouched);
otherwise parse the price and set
`display = (maxPrice === null || maxPrice === undefined || price <= maxPrice)
? "inline-block" : "none"`.  An unparseable price is NaN, and
`NaN <= maxPrice` is false in JS, so the item is hidden when a maxPrice
is present and shown (by the null/undefined short-circuit) when it is
absent. -/
def filterItem (maxPrice : Option Rat) (it : ProductItem) : ProductItem :=
  match it.price with
  | .missing => it
  | .unparsable =>
    match maxPrice with
    | none => { it with display := "inline-block" }
    | some _ => { it with display := "none" }
  | .value p =>
    match maxPrice with
    | none => { it with display := "inline-block" }
    | some m =>
      if p ≤ m then { it with display := "inline-block" }
      else { it with display := "none" }

/-- The body of the second `forEach` of `SalTalk.filterByPrice`, per
container: the source's local `visibleProducts` is the count of the
`app-product-item` descendants whose `style.display != "none"` (inlined
here); if the count is 0 set `display = "none"`, else
`display = "block"`. -/
def filterContainer (c : ProductContainer) : ProductContainer :=
  if (c.items.filter (fun it => it.display ≠ "none")).length = 0
  then { c with display := "none" }
  else { c with display := "block" }

/-- `SalTalk.filterByPrice(maxPrice)`: first pass over every
`app-product-item` in the document, then a pass over every
`.product-container`, the container pass reading the displays just
written by the item pass. -/
def filterByPrice (maxPrice : Option Rat) (pg : FilterPage) : FilterPage :=
  let afterItems : FilterPage :=
    { containers :=
        pg.containers.map (fun c => { c with items := c.items.map (filterItem maxPrice) })
      looseItems := pg.looseItems.map (filterItem maxPrice) }
  { afterItems with containers := afterItems.containers.map filterContainer }

/-! ## `Utils.waitForElement` -/

/-- How a `Utils.waitForElement` promise settled, and at what elapsed
time (in time units from the call). -/
inductive WfeOutcome where
  | resolved : Nat → WfeOutcome
  | timedOut : Nat → WfeOutcome
deriving DecidableEq

/-- Elapsed time at which the outcome happened. -/
def WfeOutcome.time : WfeOutcome → Nat
  | .resolved t => t
  | .timedOut t => t

/-- One tick of the `setInterval` callback, the k-th tick firing at
elapsed time `100*k`: if `document.querySelector(selector)` matches
(predicate `p` at that time), resolve; else if `timeout` is undefined
keep trying; else if `Date.now() - startTime > timeout` reject. -/
def wfeTick (p : Nat → Bool) (timeout : Option Nat) (k : Nat) : Option WfeOutcome :=
  if p (100 * k) then some (.resolved (100 * k))
  else
    match timeout with
    | none => none
    | some t => if t < 100 * k then some (.timedOut (100 * k)) else none

/-- Run the interval from tick `k` onwards for at most `fuel` ticks,
returning the first settlement if any.  The promise executor only
installs the timer, so the first evaluation of the predicate is at tick
1 (elapsed time 100). -/
def wfeSearch (p : Nat → Bool) (timeout : Option Nat) : Nat → Nat → Option WfeOutcome
  | _, 0 => none
  | k, fuel + 1 =>
    match wfeTick p timeout k with
    | some o => some o
    | none => wfeSearch p timeout (k + 1) fuel

/-- `Utils.waitForElement(selector, timeout)` observed for `fuel` ticks:
the ticks start at elapsed time 100. -/
def waitForElement (p : Nat → Bool) (timeout : Option Nat) (fuel : Nat) : Option WfeOutcome :=
  wfeSearch p timeout 1 fuel

/-! ### Helper lemmas about the polling loop -/

/-- Once the loop has settled within some fuel budget, more fuel returns
the same settlement. -/
theorem wfeSearch_mono (p : Nat → Bool) (timeout : Option Nat) (o : WfeOutcome) :
    ∀ fuel k fuel', wfeSearch p timeout k fuel = some o → fuel ≤ fuel' →
      wfeSearch p timeout k fuel' = some o := by
  intro fuel
  induction fuel with
  | zero => intro k fuel' h; simp [wfeSearch] at h
  | succ n ih =>
    intro k fuel' h hle
    obtain ⟨m, rfl⟩ := Nat.exists_eq_add_of_le hle
    rw [Nat.succ_add]
    cases htick : wfeTick p timeout k with
    | some o' =>
      rw [wfeSearch, htick] at h
      rw [wfeSearch, htick]
      exact h
    | none =>
      rw [wfeSearch, htick] at h
      rw [wfeSearch, htick]
      exact ih (k + 1) (n + m) h (Nat.le_add_right n m)

/-- Any settlement reached from tick `k` happens at a tick `j ≥ k`, so at
elapsed time at least `100*k`. -/
theorem wfeSearch_time_lb (p : Nat → Bool) (timeout : Option Nat) (o : WfeOutcome) :
    ∀ fuel k, wfeSearch p timeout k fuel = some o → 100 * k ≤ o.time := by
  intro fuel
  induction fuel with
  | zero => intro k h; simp [wfeSearch] at h
  | succ n ih =>
    intro k h
    cases htick : wfeTick p timeout k with
    | some o' =>
      rw [wfeSearch, htick] at h
      replace h : o' = o := by simpa using h
      cases h
      unfold wfeTick at htick
      by_cases hp : p (100 * k)
      · simp [hp] at htick; cases htick; simp [WfeOutcome.time]
      · simp [hp] at htick
        cases timeout with
        | none => simp at htick
        | some t =>
          simp at htick
          by_cases ht : t < 100 * k
          · simp [ht] at htick; cases htick; simp [WfeOutcome.time]
          · simp [ht] at htick
    | none =>
      rw [wfeSearch, htick] at h
      calc 100 * k ≤ 100 * (k + 1) := by omega
        _ ≤ o.time := ih (k + 1) h

/-! ## `Utils.urlWatcher` -/

/-- The state of `Utils.urlWatcher`: the closure variable `previousUrl`,
seeded as `""`. -/
structure UrlWatcherState where
  previousUrl : String
deriving DecidableEq

/-- Initial state of the watcher (`let previousUrl = ""`). -/
def urlWatcherInit : UrlWatcherState := ⟨""⟩

/-- One run of the `MutationObserver` callback of `Utils.urlWatcher`,
given the current `window.location.href`: if it differs from
`previousUrl`, cache the old value, store the new one, and call
`callback(href, cachedPreviousUrl)`.  The result is the state in force
while the callback runs, paired with the callback's arguments (`none`
when the callback is not invoked). -/
def urlWatcherStep (st : UrlWatcherState) (href : String) :
    UrlWatcherState × Option (String × String) :=
  if href ≠ st.previousUrl then (⟨href⟩, some (href, st.previousUrl))
  else (st, none)

/-! ## `Utils.debounceLeading` -/

/-- Run the wrapper returned by `debounceLeading(func, timeout)` over a
sequence of invocations `(time, args)` with strictly increasing times.
The closure variable `timer` is modelled as the deadline of the pending
`setTimeout` (`none` when no timer is pending); the timeout callback
runs at its deadline and clears `timer`, so at an invocation at time `t`
the timer set at a previous invocation time `u` is still pending iff
`t ≤ u + timeout`.  The body runs `func` synchronously with the current
arguments iff `timer` is not pending, and unconditionally replaces the
timer with a new one expiring `timeout` units later.  Returns the
invocations that actually ran `func`, with the arguments they ran it
with. -/
def debounceLeadingRun {α : Type} (timeout : Nat) :
    Option Nat → List (Nat × α) → List (Nat × α)
  | _, [] => []
  | st, (t, a) :: rest =>
    let timerPending : Bool :=
      match st with
      | none => false
      | some d => decide (t ≤ d)
    let out := debounceLeadingRun timeout (some (t + timeout)) rest
    if timerPending then out else (t, a) :: out

/-- The chain condition "every invocation is within `timeout` of the
previous one", starting from a previous invocation at time `prev`. -/
def withinCooldownChain {α : Type} (timeout : Nat) : Nat → List (Nat × α) → Prop
  | _, [] => True
  | prev, (t, _) :: rest => t ≤ prev + timeout ∧ withinCooldownChain timeout t rest

/-- A chain of invocations each within the (continually reset) cooldown
window of the previous one produces no executions. -/
theorem debounceLeadingRun_chain {α : Type} (timeout : Nat) :
    ∀ (l : List (Nat × α)) (prev : Nat), withinCooldownChain timeout prev l →
      debounceLeadingRun timeout (some (prev + timeout)) l = [] := by
  intro l
  induction l with
  | nil => intro prev _; rfl
  | cons hd tl ih =>
    intro prev hchain
    obtain ⟨t, a⟩ := hd
    obtain ⟨hle, htl⟩ := hchain
    simp only [debounceLeadingRun, decide_eq_true hle, if_true]
    exact ih t htl

/-! ## `Utils.elementWatcher` -/

/-- A node of the live tree: whether it is an element
(`NodeFilter.SHOW_ELEMENT` / presence of a `.matches` method), whether
it matches the watcher's selector, and its child list in document
order. -/
inductive DomNode where
  | mk : Bool → Bool → List DomNode → DomNode

/-- Whether the node is an element node. -/
def DomNode.isElem : DomNode → Bool
  | .mk e _ _ => e

/-- Whether the node matches the watcher's selector
(`node.matches(selector)`); only meaningful on element nodes. -/
def DomNode.matchesSel : DomNode → Bool
  | .mk _ m _ => m

/-- The node's children in document order. -/
def DomNode.children : DomNode → List DomNode
  | .mk _ _ cs => cs

mutual

/-- Document-order (preorder) listing of a subtree, root included. -/
def preorder : DomNode → List DomNode
  | .mk e m cs => .mk e m cs :: preorderList cs

/-- Document-order listing of a forest of subtrees. -/
def preorderList : List DomNode → List DomNode
  | [] => []
  | c :: cs => preorder c ++ preorderList cs

end

/-- The nodes visited by
`walker = document.createTreeWalker(node, NodeFilter.SHOW_ELEMENT)` via
`while (walker.nextNode())`: `nextNode()` moves PAST the walker root
before inspecting, so the visited nodes are the element nodes of the
subtree in document order, the root itself excluded. -/
def walkerVisits (n : DomNode) : List DomNode :=
  (preorderList n.children).filter (fun c => c.isElem)

/-- The event names of `Utils.elementWatcher`. -/
inductive WatchEvent where
  | init : WatchEvent
  | added : WatchEvent
  | removed : WatchEvent
  | modified : WatchEvent
deriving DecidableEq

/-- An observable action of `Utils.elementWatcher`: an invocation
`callback(arg, ev)`, or an `addModifiedObserver(target)` attachment of a
dedicated per-node MutationObserver. -/
inductive WatcherAction where
  | callbackCall : DomNode → WatchEvent → WatcherAction
  | attachObserver : DomNode → WatcherAction

/-- Whether the action is an observer attachment. -/
def WatcherAction.isAttach : WatcherAction → Bool
  | .attachObserver _ => true
  | _ => false

/-- The body of the walker loop of the "added" MutationObserver, for one
visited walker node `w` of the inserted subtree rooted at `root`:
`if (w.matches && w.matches(selector)) { if added ∈ events
callback(root, "added"); if modified ∈ events addModifiedObserver(root) }`.
Note both the callback argument and the observer target are `root` (the
variable `node` of the source), not `w`. -/
def addedActionsFor (events : List WatchEvent) (root w : DomNode) : List WatcherAction :=
  if w.matchesSel then
    (if events.contains .added then [.callbackCall root .added] else []) ++
    (if events.contains .modified then [.attachObserver root] else [])
  else []

/-- Processing of one entry of `mutation.addedNodes`: walk the inserted
subtree with the tree walker (root excluded, see `walkerVisits`) and run
the loop body on each visited node. -/
def processAddedNode (events : List WatchEvent) (root : DomNode) : List WatcherAction :=
  (walkerVisits root).flatMap (addedActionsFor events root)

/-- The type of a raw mutation record. -/
inductive MutationType where
  | childList : MutationType
  | attributes : MutationType
  | characterData : MutationType
deriving DecidableEq

/-- A raw mutation record, restricted to the fields the "added" observer
reads: its type and its `addedNodes` list. -/
structure MutationRecord where
  type : MutationType
  addedNodes : List DomNode

/-- One batch of the "added" MutationObserver of `Utils.elementWatcher`:
`mutations.filter(m => m.type == "childList").forEach(m =>
m.addedNodes.forEach(node => ...))`. -/
def processAddedBatch (events : List WatchEvent) (muts : List MutationRecord) :
    List WatcherAction :=
  (muts.filter (fun m => m.type = .childList)).flatMap
    (fun m => m.addedNodes.flatMap (processAddedNode events))

/-- `document.body.querySelectorAll(selector)`: the matching element
descendants of `body`, in document order (`body` itself excluded). -/
def querySelectorAllBody (body : DomNode) : List DomNode :=
  (preorderList body.children).filter (fun n => n.isElem && n.matchesSel)

/-- The body of the initial `querySelectorAll(selector).forEach` of
`Utils.elementWatcher`, per already-present matching node: `if init ∈
events callback(node, "init"); if modified ∈ events
addModifiedObserver(node)`. -/
def initActionsFor (events : List WatchEvent) (n : DomNode) : List WatcherAction :=
  (if events.contains .init then [.callbackCall n .init] else []) ++
  (if events.contains .modified then [.attachObserver n] else [])

/-- The whole initial scan of `Utils.elementWatcher`. -/
def initScan (events : List WatchEvent) (body : DomNode) : List WatcherAction :=
  (querySelectorAllBody body).flatMap (initActionsFor events)

/-! ## `FilterByBudgetComponent` callback registrations -/

/-- A primitive statement of a callback body registered by the
`FilterByBudgetComponent` constructor.  `methodRefExpr` is an
expression-bodied arrow function whose body is the bare member access
`this.#applyFilter`: evaluating it produces (and discards) a reference
to the method and performs no call. -/
inductive CallbackStmt where
  | methodRefExpr : CallbackStmt
  | callApplyFilter : CallbackStmt
  | consoleLog : String → CallbackStmt
  | setEnabledFromArg : CallbackStmt
  | rebuildToggleUi : CallbackStmt
deriving DecidableEq

/-- A callback registered by the constructor: whether the handed-over
function was wrapped in `Utils.debounceLeading`, and the statements its
innermost body executes when invoked. -/
structure CallbackRegistration where
  usesDebounceLeading : Bool
  body : List CallbackStmt

/-- `Utils.urlWatcher((_url) => this.#applyFilter)`: not debounced; the
body is the bare method reference, no call. -/
def urlChangedCallback : CallbackRegistration :=
  { usesDebounceLeading := false, body := [.methodRefExpr] }

/-- The `.menu-user-preferences-tags` watcher (`["init", "added"]`): it
removes and re-creates the toggle `CheckBoxComponent`. -/
def menuTagsCallback : CallbackRegistration :=
  { usesDebounceLeading := false, body := [.rebuildToggleUi] }

/-- The `#menu-products-box ...` item-list watcher
(`["init", "added", "modified"]`):
`Utils.debounceLeading((_elem, _modification) => this.#applyFilter)` —
debounced, but the inner body is the bare method reference, no call. -/
def menuProductsBoxCallback : CallbackRegistration :=
  { usesDebounceLeading := true, body := [.methodRefExpr] }

/-- The cart watcher (`SalTalk.Cart.selector`,
`["init", "added", "modified"]`): debounced, and the inner body logs and
then calls `this.#applyFilter()`. -/
def cartCallback : CallbackRegistration :=
  { usesDebounceLeading := true,
    body := [.consoleLog "cart updated", .callApplyFilter] }

/-- The checkbox `changedCallback`: sets `this.enabled` and calls
`this.#applyFilter()`; invoked directly by the checkbox change event, no
debounce. -/
def toggleChangedCallback : CallbackRegistration :=
  { usesDebounceLeading := false, body := [.setEnabledFromArg, .callApplyFilter] }

/-- Whether invoking the registered callback executes `#applyFilter`
(i.e. its body contains an actual call statement). -/
def invokesApplyFilter (r : CallbackRegistration) : Bool :=
  r.body.contains .callApplyFilter

/-! ### Counting helpers for observer attachments -/

/-- Attachment count of the added-walk loop body for one visited node:
one observer when the node matches (given "modified" is watched), none
otherwise. -/
theorem attachCount_addedActionsFor (events : List WatchEvent) (root w : DomNode)
    (h : events.contains .modified = true) :
    ((addedActionsFor events root w).filter WatcherAction.isAttach).length =
      if w.matchesSel then 1 else 0 := by
  have hmem : WatchEvent.modified ∈ events := by simpa using h
  unfold addedActionsFor
  cases hm : w.matchesSel with
  | false => simp
  | true =>
    by_cases ha : WatchEvent.added ∈ events <;>
      simp [ha, hmem, List.filter_append, WatcherAction.isAttach]

/-- Over one inserted subtree, the added pass attaches exactly one
modified observer per matching element found by the walk (the root
itself excluded by the walk). -/
theorem attachCount_processAddedNode (events : List WatchEvent) (n : DomNode)
    (h : events.contains .modified = true) :
    ((processAddedNode events n).filter WatcherAction.isAttach).length =
      ((walkerVisits n).filter (fun w => w.matchesSel)).length := by
  unfold processAddedNode
  generalize walkerVisits n = l
  induction l with
  | nil => simp
  | cons w l ih =>
    cases hm : w.matchesSel <;>
      simp [List.filter_append, attachCount_addedActionsFor events n w h, hm, ih]
    omega

/-- Every observer the added pass attaches is attached to the inserted
root node. -/
theorem attachTarget_processAddedNode (events : List WatchEvent) (n : DomNode) :
    ∀ a ∈ processAddedNode events n, a.isAttach = true →
      a = WatcherAction.attachObserver n := by
  intro a ha hatt
  simp only [processAddedNode, List.mem_flatMap] at ha
  obtain ⟨w, _, haw⟩ := ha
  unfold addedActionsFor at haw
  by_cases hm : w.matchesSel = true
  · rw [if_pos hm, List.mem_append] at haw
    cases haw with
    | inl hcb =>
      split at hcb
      · simp at hcb
        rw [hcb] at hatt
        simp [WatcherAction.isAttach] at hatt
      · simp at hcb
    | inr hat =>
      split at hat
      · simpa using hat
      · simp at hat
  · rw [if_neg hm] at haw
    simp at haw

/-- The initial scan attaches exactly one modified observer per
already-present matching node. -/
theorem attachCount_initScan (events : List WatchEvent) (body : DomNode)
    (h : events.contains .modified = true) :
    ((initScan events body).filter WatcherAction.isAttach).length =
      (querySelectorAllBody body).length := by
  unfold initScan
  generalize querySelectorAllBody body = l
  induction l with
  | nil => simp
  | cons n l ih =>
    have hmem : WatchEvent.modified ∈ events := by simpa using h
    have hone : ((initActionsFor events n).filter WatcherAction.isAttach).length = 1 := by
      unfold initActionsFor
      by_cases hi : WatchEvent.init ∈ events <;>
        simp [hi, hmem, List.filter_append, WatcherAction.isAttach]
    simp [List.filter_append, hone, ih]
    omega

/-! ### Helper lemmas about the filter pass -/

/-- The container pass never touches the container's item list. -/
theorem filterContainer_items (c : ProductContainer) :
    (filterContainer c).items = c.items := by
  unfold filterContainer
  split <;> rfl

/-- The visibility the container pass writes, in terms of the members'
displays. -/
theorem filterContainer_spec (c : ProductContainer) :
    (filterContainer c).items = c.items ∧
    ((filterContainer c).display = "block" ↔ ∃ it ∈ c.items, it.display ≠ "none") ∧
    ((filterContainer c).display = "none" ↔ ∀ it ∈ c.items, it.display = "none") := by
  unfold filterContainer
  by_cases h : (c.items.filter (fun it => it.display ≠ "none")).length = 0
  · have hall : ∀ it ∈ c.items, it.display = "none" := by
      intro it hit
      by_contra hne
      have hmemf : it ∈ c.items.filter (fun it => it.display ≠ "none") := by
        rw [List.mem_filter]
        exact ⟨hit, by simpa using hne⟩
      rw [List.length_eq_zero.mp h] at hmemf
      simp at hmemf
    rw [if_pos h]
    refine ⟨rfl, ?_, ?_⟩
    · constructor
      · intro hx; simp at hx
      · rintro ⟨it, hit, hne⟩; exact absurd (hall it hit) hne
    · exact iff_of_true rfl hall
  · have hex : ∃ it ∈ c.items, it.display ≠ "none" := by
      obtain ⟨it, hit⟩ :=
        List.exists_mem_of_length_pos (Nat.pos_of_ne_zero h)
      rw [List.mem_filter] at hit
      exact ⟨it, hit.1, by simpa using hit.2⟩
    rw [if_neg h]
    refine ⟨rfl, iff_of_true rfl hex, ?_⟩
    constructor
    · intro hx; simp at hx
    · intro hall
      obtain ⟨it, hit, hne⟩ := hex
      exact absurd (hall it hit) hne

/-- The item pass applies the per-item body to every item of the page,
each item independently, and the container pass leaves items alone. -/
theorem filterByPrice_items (maxPrice : Option Rat) (pg : FilterPage) :
    (filterByPrice maxPrice pg).looseItems = pg.looseItems.map (filterItem maxPrice) ∧
    (filterByPrice maxPrice pg).containers.map (fun c => c.items) =
      pg.containers.map (fun c => c.items.map (filterItem maxPrice)) := by
  constructor
  · rfl
  · unfold filterByPrice
    simp [List.map_map, Function.comp_def, filterContainer_items]

/-! ## Claim theorems -/

/-- C1: for every item processed by the filter pass with a parseable
price `p`, when `maxPrice` is present the item's display is set to
visible ("inline-block") iff `p ≤ maxPrice` (and to hidden ("none")
otherwise), and when `maxPrice` is absent (null or undefined) the item's
display is set to visible. -/
theorem filterByPrice_threshold (it : ProductItem) (p m : Rat)
    (h : it.price = PriceField.value p) :
    ((filterItem (some m) it).display = "inline-block" ↔ p ≤ m) ∧
    ((filterItem (some m) it).display = "none" ↔ ¬ p ≤ m) ∧
    (filterItem none it).display = "inline-block" := by
  unfold filterItem
  rw [h]
  by_cases hpm : p ≤ m <;> simp [hpm]

/-- Witness for C1 at a concrete item: price 5, maxPrice 10. -/
theorem filterByPrice_threshold_witness :
    ((filterItem (some (10 : Rat)) ⟨PriceField.value 5, ""⟩).display = "inline-block"
      ↔ (5 : Rat) ≤ 10) ∧
    ((filterItem (some (10 : Rat)) ⟨PriceField.value 5, ""⟩).display = "none"
      ↔ ¬ (5 : Rat) ≤ 10) ∧
    (filterItem none ⟨PriceField.value 5, ""⟩).display = "inline-block" :=
  filterByPrice_threshold ⟨PriceField.value 5, ""⟩ 5 10 rfl

/-- C2: after the filter pass, every container's display is "block"
(visible) iff at least one of its current member items has a display
other than "none", and "none" (hidden) iff every member is hidden —
in particular a container with no member items is hidden. -/
theorem containerCascade (maxPrice : Option Rat) (pg : FilterPage)
    (c' : ProductContainer) (h : c' ∈ (filterByPrice maxPrice pg).containers) :
    (c'.display = "block" ↔ ∃ it ∈ c'.items, it.display ≠ "none") ∧
    (c'.display = "none" ↔ ∀ it ∈ c'.items, it.display = "none") ∧
    (c'.items = [] → c'.display = "none") := by
  have hmem : ∃ c, filterContainer c = c' := by
    unfold filterByPrice at h
    simp only [List.mem_map] at h
    obtain ⟨c, _, hc⟩ := h
    exact ⟨c, hc⟩
  obtain ⟨c, rfl⟩ := hmem
  obtain ⟨hitems, hblock, hnone⟩ := filterContainer_spec c
  rw [hitems]
  refine ⟨hblock, hnone, ?_⟩
  intro hempty
  rw [hnone, hempty]
  intro it hit
  simp at hit

/-- Witness for C2 on a concrete page: one container whose single item
is priced over budget, and one empty container. -/
theorem containerCascade_witness :
    let pg : FilterPage :=
      { containers :=
          [ { display := "", items := [⟨PriceField.value 20, ""⟩] },
            { display := "", items := [] } ],
        looseItems := [] }
    ∀ c' ∈ (filterByPrice (some (10 : Rat)) pg).containers,
      (c'.display = "block" ↔ ∃ it ∈ c'.items, it.display ≠ "none") ∧
      (c'.display = "none" ↔ ∀ it ∈ c'.items, it.display = "none") ∧
      (c'.items = [] → c'.display = "none") :=
  fun c' hc => containerCascade (some 10) _ c' hc

/-- C7, counterexample: with `maxPrice = 10` present, an item whose
price text does not parse (NaN) is not excluded from the visibility
computation — the pass assigns it a visibility decision, overwriting
its display with "none". -/
theorem unparsablePrice_assigned_cx :
    (filterItem (some (10 : Rat)) ⟨PriceField.unparsable, ""⟩).display = "none" ∧
    (filterItem (some (10 : Rat)) ⟨PriceField.unparsable, ""⟩).display ≠ "" :=
  ⟨rfl, by decide⟩

/-- C7 as amended: with `maxPrice` present, an item whose price element
is absent is skipped with its whole state (display included) unchanged;
an item whose price text cannot be parsed is assigned the hidden
decision ("none", since `NaN <= maxPrice` is false); and in every case
the pass still processes all remaining items — each item of the page is
mapped through the per-item body independently, with no whole-pass
abort. -/
theorem parseFailure_handling (m : Rat) (it : ProductItem)
    (maxPrice : Option Rat) (pg : FilterPage) :
    (it.price = PriceField.missing → filterItem (some m) it = it) ∧
    (it.price = PriceField.unparsable → (filterItem (some m) it).display = "none") ∧
    ((filterByPrice maxPrice pg).looseItems = pg.looseItems.map (filterItem maxPrice)) ∧
    ((filterByPrice maxPrice pg).containers.map (fun c => c.items) =
      pg.containers.map (fun c => c.items.map (filterItem maxPrice))) := by
  obtain ⟨hl, hc⟩ := filterByPrice_items maxPrice pg
  refine ⟨?_, ?_, hl, hc⟩
  · intro h; unfold filterItem; rw [h]
  · intro h; unfold filterItem; rw [h]

/-- Witness for C7 at concrete inputs: a missing-price item, an
unparseable-price item, and a two-item page. -/
theorem parseFailure_handling_witness :
    (filterItem (some (10 : Rat)) ⟨PriceField.missing, "inline-block"⟩ =
      ⟨PriceField.missing, "inline-block"⟩) ∧
    ((filterItem (some (10 : Rat)) ⟨PriceField.unparsable, ""⟩).display = "none") ∧
    ((filterByPrice (some 10)
        { containers := [], looseItems := [⟨PriceField.value 3, ""⟩, ⟨PriceField.missing, ""⟩] }).looseItems =
      [⟨PriceField.value 3, ""⟩, ⟨PriceField.missing, ""⟩].map (filterItem (some 10))) :=
  ⟨(parseFailure_handling 10 ⟨PriceField.missing, "inline-block"⟩ (some 10)
      { containers := [], looseItems := [] }).1 rfl,
   (parseFailure_handling 10 ⟨PriceField.unparsable, ""⟩ (some 10)
      { containers := [], looseItems := [] }).2.1 rfl,
   (parseFailure_handling 10 ⟨PriceField.unparsable, ""⟩ (some 10)
      { containers := [], looseItems := [⟨PriceField.value 3, ""⟩, ⟨PriceField.missing, ""⟩] }).2.2.1⟩

/-- An inserted subtree whose root and both children are elements and
whose two children both match the selector. -/
def dupRoot : DomNode :=
  DomNode.mk true false [DomNode.mk true true [], DomNode.mk true true []]

/-- C3, evaluation of the code at the failing input: the walker loop
calls `walker.nextNode()` before inspecting, so the inserted root is
never tested against the selector.  A directly inserted element that
matches the selector but has no matching descendant produces zero
"added" callbacks, while a nested match does fire, with the inserted
root as argument. -/
theorem addedWalk_skips_root_eval :
    processAddedBatch [WatchEvent.added]
      [{ type := MutationType.childList,
         addedNodes := [DomNode.mk true true []] }] = [] ∧
    processAddedBatch [WatchEvent.added]
      [{ type := MutationType.childList,
         addedNodes := [DomNode.mk true false [DomNode.mk true true []]] }] =
      [WatcherAction.callbackCall
        (DomNode.mk true false [DomNode.mk true true []]) WatchEvent.added] := by
  constructor <;> rfl

/-- C4, counterexample: one inserted subtree with two matching
descendants attaches two modified observers, both to the same (root)
node — so more than one observer is attached to a node, and a change to
that node then fires the "modified" callback once per observer. -/
theorem modifiedObserver_duplicate_cx :
    ((processAddedBatch [WatchEvent.added, WatchEvent.modified]
        [{ type := MutationType.childList, addedNodes := [dupRoot] }]).filter
      WatcherAction.isAttach) =
      [WatcherAction.attachObserver dupRoot, WatcherAction.attachObserver dupRoot] ∧
    ¬ ((2 : Nat) ≤ 1) := by
  constructor
  · rfl
  · decide

/-- C4 as amended: the initial scan attaches exactly one modified
observer per already-present matching node; the added pass attaches one
modified observer to the inserted root per matching element found by
the subtree walk (the root itself excluded), so a subtree with several
matching descendants receives several observers on its root, and a
re-encountered node receives a further observer; every observer of the
added pass targets the inserted root. -/
theorem modifiedObserver_attach_count (events : List WatchEvent) (body n : DomNode)
    (h : events.contains WatchEvent.modified = true) :
    (((initScan events body).filter WatcherAction.isAttach).length =
      (querySelectorAllBody body).length) ∧
    (((processAddedNode events n).filter WatcherAction.isAttach).length =
      ((walkerVisits n).filter (fun w => w.matchesSel)).length) ∧
    (∀ a ∈ processAddedNode events n, a.isAttach = true →
      a = WatcherAction.attachObserver n) :=
  ⟨attachCount_initScan events body h, attachCount_processAddedNode events n h,
   attachTarget_processAddedNode events n⟩

/-- Witness for C4's amended statement on the concrete two-match
subtree. -/
theorem modifiedObserver_attach_count_witness :
    (((initScan [WatchEvent.modified] dupRoot).filter WatcherAction.isAttach).length =
      (querySelectorAllBody dupRoot).length) ∧
    (((processAddedNode [WatchEvent.modified] dupRoot).filter WatcherAction.isAttach).length =
      ((walkerVisits dupRoot).filter (fun w => w.matchesSel)).length) ∧
    (∀ a ∈ processAddedNode [WatchEvent.modified] dupRoot, a.isAttach = true →
      a = WatcherAction.attachObserver dupRoot) :=
  modifiedObserver_attach_count [WatchEvent.modified] dupRoot dupRoot rfl

/-- C5, evaluation of the code at the failing inputs: the item-list
(`#menu-products-box ...`) watcher body and the URL watcher body are
arrow functions whose body is the bare member access `this.#applyFilter`
— a reference, not a call — so those two triggers never invoke the
filter, although the item-list callback is indeed routed through
`debounceLeading`.  The cart watcher (debounced) and the toggle callback
(not debounced) do call `this.#applyFilter()`. -/
theorem applyFilter_not_invoked_eval :
    invokesApplyFilter menuProductsBoxCallback = false ∧
    invokesApplyFilter urlChangedCallback = false ∧
    menuProductsBoxCallback.usesDebounceLeading = true ∧
    invokesApplyFilter cartCallback = true ∧
    cartCallback.usesDebounceLeading = true ∧
    invokesApplyFilter toggleChangedCallback = true ∧
    toggleChangedCallback.usesDebounceLeading = false :=
  ⟨rfl, rfl, rfl, rfl, rfl, rfl, rfl⟩

/-- C6, counterexample: with `timeout = 500` and a never-matching
predicate, the rejection check `Date.now() - startTime > timeout` is
strict, so on exact 100-unit ticks the promise rejects at elapsed time
600 — not strictly less than 600 as claimed. -/
theorem waitTimeout_at_600_cx :
    waitForElement (fun _ => false) (some 500) 6 = some (WfeOutcome.timedOut 600) ∧
    ¬ ((600 : Nat) < 600) := by
  constructor
  · rfl
  · decide

/-- C6 as amended: `wait(predicate, 500)` against a never-matching
predicate fails with the timeout error at elapsed time at least 500 and
at most 600 (exactly 600 on exact 100-unit ticks, the first tick whose
elapsed time strictly exceeds 500); with the timeout argument omitted it
never settles, for any bound, while the predicate stays false. -/
theorem waitTimeout_bounds :
    (∀ fuel, 6 ≤ fuel → waitForElement (fun _ => false) (some 500) fuel =
      some (WfeOutcome.timedOut 600)) ∧
    ((500 : Nat) ≤ 600 ∧ (600 : Nat) ≤ 600) ∧
    (∀ fuel, waitForElement (fun _ => false) none fuel = none) := by
  refine ⟨?_, by decide, ?_⟩
  · intro fuel hf
    exact wfeSearch_mono _ _ _ 6 1 fuel rfl hf
  · intro fuel
    suffices h : ∀ fuel k, wfeSearch (fun _ => false) none k fuel = none from h fuel 1
    intro fuel
    induction fuel with
    | zero => intro k; rfl
    | succ n ih =>
      intro k
      rw [wfeSearch]
      have htick : wfeTick (fun _ => false) none k = none := rfl
      rw [htick]
      exact ih (k + 1)

/-- Witness for C6's amended statement at a concrete fuel bound. -/
theorem waitTimeout_bounds_witness :
    waitForElement (fun _ => false) (some 500) 10 = some (WfeOutcome.timedOut 600) :=
  waitTimeout_bounds.1 10 (by decide)

/-- C8: the wrapper returned by `debounceLeading(f, c)` runs `f`
synchronously with the arguments of the first invocation after an idle
period; every subsequent invocation within `c` of the previous
invocation (equivalently, any chain of such invocations) runs `f` zero
times, its arguments discarded, while still resetting the cooldown
window; and an invocation arriving more than `c` after the previous
invocation runs `f` immediately again with its own arguments. -/
theorem debounceLeading_spec {α : Type} (c t₁ t₂ t₃ : Nat) (a₁ a₂ a₃ : α)
    (l : List (Nat × α)) :
    (debounceLeadingRun c none ((t₁, a₁) :: l) =
      (t₁, a₁) :: debounceLeadingRun c (some (t₁ + c)) l) ∧
    (withinCooldownChain c t₁ l →
      debounceLeadingRun c none ((t₁, a₁) :: l) = [(t₁, a₁)]) ∧
    (t₁ + c < t₂ →
      debounceLeadingRun c none [(t₁, a₁), (t₂, a₂)] = [(t₁, a₁), (t₂, a₂)]) ∧
    (t₂ ≤ t₁ + c → t₃ ≤ t₂ + c →
      debounceLeadingRun c none [(t₁, a₁), (t₂, a₂), (t₃, a₃)] = [(t₁, a₁)]) := by
  refine ⟨?_, ?_, ?_, ?_⟩
  · simp [debounceLeadingRun]
  · intro hchain
    simp [debounceLeadingRun, debounceLeadingRun_chain c l t₁ hchain]
  · intro h
    simp [debounceLeadingRun, decide_eq_false (Nat.not_le.mpr h)]
  · intro h1 h2
    simp [debounceLeadingRun, h1, h2]

/-- Witness for C8 at concrete invocation times (cooldown 100): a
suppressed burst and a post-cooldown re-execution. -/
theorem debounceLeading_spec_witness :
    (debounceLeadingRun 100 none [((0 : Nat), (0 : Nat)), (50, 1), (120, 2)] = [(0, 0)]) ∧
    (debounceLeadingRun 100 none [((0 : Nat), (0 : Nat)), (150, 1)] = [(0, 0), (150, 1)]) :=
  ⟨(debounceLeading_spec 100 0 50 120 0 1 2 [(50, 1), (120, 2)]).2.1
      ⟨by decide, by decide, trivial⟩,
   (debounceLeading_spec 100 0 150 0 0 1 0 []).2.2.1 (by decide)⟩

/-- C9: on a raw mutation notification, the navigation watcher fires
iff the current location differs from the stored previous location; when
it fires, the stored value holds the new location while the callback
runs, and the callback receives `(newLocation, previousLocation)`; when
the location is unchanged, nothing fires and nothing changes. -/
theorem urlWatcher_spec (st : UrlWatcherState) (href : String) :
    (((urlWatcherStep st href).2 ≠ none) ↔ href ≠ st.previousUrl) ∧
    (∀ args, (urlWatcherStep st href).2 = some args →
      args = (href, st.previousUrl) ∧
      (urlWatcherStep st href).1.previousUrl = href) ∧
    (href = st.previousUrl → urlWatcherStep st href = (st, none)) := by
  unfold urlWatcherStep
  by_cases h : href = st.previousUrl
  · simp [h]
  · simp [h]

/-- Witness for C9: the first navigation away from the seeded empty URL
fires with the new and the (empty) old location, the store updated. -/
theorem urlWatcher_spec_witness :
    ("https://host/a", "") = ("https://host/a", urlWatcherInit.previousUrl) ∧
    (urlWatcherStep urlWatcherInit "https://host/a").1.previousUrl = "https://host/a" :=
  (urlWatcher_spec urlWatcherInit "https://host/a").2.1 ("https://host/a", "") rfl

/-- C10: `wait` never settles synchronously — any settlement happens at
elapsed time at least 100 (one poll interval), and even a predicate that
is already true at call time resolves exactly at the first tick, elapsed
time 100, because the predicate is first evaluated there. -/
theorem waitForElement_no_sync_settle (p : Nat → Bool) (timeout : Option Nat)
    (fuel : Nat) (o : WfeOutcome) (h : waitForElement p timeout fuel = some o) :
    100 ≤ o.time ∧
    (∀ t fuel', waitForElement (fun _ => true) t (fuel' + 1) =
      some (WfeOutcome.resolved 100)) := by
  constructor
  · simpa using wfeSearch_time_lb p timeout o fuel 1 h
  · intro t fuel'
    rfl

/-- Witness for C10 with an always-true predicate: the promise settles,
and no earlier than 100. -/
theorem waitForElement_no_sync_settle_witness :
    100 ≤ (WfeOutcome.resolved 100).time ∧
    (∀ t fuel', waitForElement (fun _ => true) t (fuel' + 1) =
      some (WfeOutcome.resolved 100)) :=
  waitForElement_no_sync_settle (fun _ => true) none 1 (WfeOutcome.resolved 100) rfl
